import Mathlib

/-!
Shallow embedding of the simulation core of `src/treeenhancedversion.py`
(a Crossy Road clone).  Python floats are embedded as `ℚ` (the spec's
contracts are stated with exact arithmetic), Python ints as `ℤ`, and
pygame `Rect`s as records of four integers.  The Python standard-library
pseudo-random generators (`random.Random(seed)` and the module-level
`random`) are embedded as explicit streams of rationals threaded through
every operation: a `Rng` value is a stream together with a cursor, and
each `random()/uniform()/randint()/choice()` call consumes one draw.
Theorems quantify over the streams, so no property below depends on the
actual Mersenne-Twister values.
-/

set_option maxRecDepth 100000

namespace CrossyRoad

/-! ### Configuration constants (source lines 46-110) -/

def WINDOW_W : ℤ := 720
def WINDOW_H : ℤ := 960
def TILE : ℤ := 48
def GRID_COLS : ℤ := WINDOW_W / TILE
def HOP_COOLDOWN_MS : ℤ := 110
def AHEAD_ROWS : ℤ := 28
def BEHIND_ROWS : ℤ := 12
def PLAYER_HITBOX_INSET : ℤ := 10

/-! ### Numeric helpers -/

/-- Python's `int(q)` on a float: truncation toward zero. -/
def pyInt (q : ℚ) : ℤ := if q < 0 then -((-q).floor) else q.floor

/-- Python's `round(q)` on a float: round half to even (banker's rounding). -/
def pyRound (q : ℚ) : ℤ :=
  let f := q.floor
  let r := q - f
  if r < 1/2 then f else if 1/2 < r then f + 1 else if f % 2 = 0 then f else f + 1

/-- Half of an integer, truncated toward zero (C `/ 2`, used by pygame's
`Rect.inflate`).  All call sites in the source pass even offsets. -/
def htz (n : ℤ) : ℤ := if n < 0 then -((-n) / 2) else n / 2

/-- Source line 115: `clamp(v, lo, hi) = lo if v < lo else hi if v > hi else v`. -/
def clamp {α : Type} [LinearOrder α] (v lo hi : α) : α :=
  if v < lo then lo else if hi < v then hi else v

/-! ### pygame rectangles (integer coordinates) -/

structure PyRect where
  x : ℤ
  y : ℤ
  w : ℤ
  h : ℤ
deriving DecidableEq, Repr

def PyRect.left (r : PyRect) : ℤ := r.x
def PyRect.right (r : PyRect) : ℤ := r.x + r.w
def PyRect.top (r : PyRect) : ℤ := r.y
def PyRect.bottom (r : PyRect) : ℤ := r.y + r.h
def PyRect.centerx (r : PyRect) : ℤ := r.x + htz r.w

/-- pygame `Rect.inflate(dx, dy)`: grow about the center. -/
def PyRect.inflate (r : PyRect) (dx dy : ℤ) : PyRect :=
  { x := r.x - htz dx, y := r.y - htz dy, w := r.w + dx, h := r.h + dy }

/-- pygame `Rect.collidepoint`: inclusive on the left/top edge, exclusive on
the right/bottom edge. -/
def PyRect.collidepoint (r : PyRect) (px py : ℤ) : Bool :=
  decide (r.x ≤ px) && decide (px < r.x + r.w) &&
  decide (r.y ≤ py) && decide (py < r.y + r.h)

/-- pygame `Rect.colliderect`: strict-overlap test. -/
def PyRect.colliderect (a b : PyRect) : Bool :=
  decide (a.x < b.x + b.w) && decide (a.x + a.w > b.x) &&
  decide (a.y < b.y + b.h) && decide (a.y + a.h > b.y)

/-! ### Pseudo-random generator model

`Rng` embeds one Python random generator: `stream` is the (arbitrary)
infinite sequence of `random()` values it would produce and `idx` is how
many draws have been consumed.  `uniform`, `randint` and `choice` are
derived from single draws, mirroring that each stdlib call advances the
generator state exactly once in this model. -/

structure Rng where
  stream : ℕ → ℚ
  idx : ℕ

def Rng.next (g : Rng) : ℚ × Rng := (g.stream g.idx, { g with idx := g.idx + 1 })

/-- `random.random()`: one draw. -/
def Rng.random (g : Rng) : ℚ × Rng := g.next

/-- `random.uniform(a, b) = a + (b - a) * random()`. -/
def Rng.uniform (g : Rng) (a b : ℚ) : ℚ × Rng :=
  let p := g.next
  (a + (b - a) * p.1, p.2)

/-- Model of `random.randint(a, b)`: an integer in `[a, b]` from one draw. -/
def Rng.randint (g : Rng) (a b : ℤ) : ℤ × Rng :=
  let p := g.next
  (a + pyInt (p.1 * (b - a + 1)), p.2)

/-- Model of `random.choice(l)`: an element of `l` selected by one draw. -/
def Rng.choice {α : Type} (g : Rng) (l : List α) (dflt : α) : α × Rng :=
  let p := g.next
  (l.getD (pyInt (p.1 * l.length)).toNat dflt, p.2)

/-! ### Obstacles (source lines 135-143) -/

inductive ObstacleKind : Type
  | car
  | log
deriving DecidableEq, Repr

/-- An RGB colour.  Purely visual; carried because the source stores it. -/
structure Rgb where
  r : ℤ
  g : ℤ
  b : ℤ
deriving DecidableEq, Repr

structure Obstacle where
  rect : PyRect
  speed : ℚ
  color : Rgb
  kind : ObstacleKind
deriving DecidableEq, Repr

/-- Source line 142: `self.rect.x += int(self.speed * dt)`. -/
def Obstacle.update (o : Obstacle) (dt : ℚ) : Obstacle :=
  { o with rect := { o.rect with x := o.rect.x + pyInt (o.speed * dt) } }

def CAR_COLORS : List Rgb :=
  [⟨232, 80, 84⟩, ⟨82, 180, 255⟩, ⟨255, 170, 55⟩,
   ⟨170, 110, 255⟩, ⟨90, 220, 140⟩, ⟨245, 245, 245⟩]

def LOG_COLORS : List Rgb :=
  [⟨128, 86, 50⟩, ⟨148, 98, 56⟩, ⟨170, 112, 62⟩]

/-! ### Lanes (source lines 203-305) -/

inductive LaneType : Type
  | grass
  | road
  | river
deriving DecidableEq, Repr

structure Lane where
  lane_type : LaneType
  row : ℤ
  direction : ℤ
  speed : ℚ
  spawn_gap : ℚ
  last_spawn_t : ℚ
  objects : List Obstacle
  decoration_seed : ℤ
  tree_positions : List ℤ
deriving DecidableEq, Repr

/-- Source lines 223-229 (`Lane._generate_tree_positions`): one
`random.Random(decoration_seed + 1000)` draw per column, a tree where the
draw is below `0.2`.  `pyR seed i` is the `i`-th value of the seeded
stdlib generator's stream. -/
def generateTreePositions (pyR : ℤ → ℕ → ℚ) (seed : ℤ) : List ℤ :=
  (List.range GRID_COLS.toNat).filterMap fun c =>
    if pyR (seed + 1000) c < 1/5 then some (c : ℤ) else none

/-- Source lines 231-233. -/
def Lane.has_tree_at (l : Lane) (c : ℤ) : Bool := l.tree_positions.contains c

/-- Source lines 235-237: increasing row goes up (negative y). -/
def Lane.world_y (l : Lane) : ℤ := -l.row * TILE

/-- Source lines 254-260: cull when fully past the screen edge plus a
four-tile margin, edge chosen by the travel direction. -/
def Lane.isFarOffscreen (o : Obstacle) : Bool :=
  let margin := TILE * 4
  if 0 < o.speed then decide (WINDOW_W + margin < o.rect.left)
  else decide (o.rect.right < -margin)

/-- Source lines 262-284 (`Lane._spawn_vehicle`); the draws come from the
module-level `random` generator `g`. -/
def Lane.spawnVehicle (l : Lane) (dt : ℚ) (g : Rng) : Lane × Rng :=
  let t := l.last_spawn_t - dt
  if 0 < t then ({ l with last_spawn_t := t }, g)
  else
    let d1 := g.uniform (11/5) (9/2)
    let d2 := d1.2.choice [(6/5 : ℚ), 3/2, 9/5, 11/5] (6/5)
    let car_w := pyInt ((TILE : ℚ) * d2.1)
    let car_h := pyInt ((TILE : ℚ) * (37/50))
    let y := l.world_y + (TILE - car_h) / 2
    let d3 := if 0 < l.direction
      then
        let o := d2.2.randint 10 80
        ((-car_w - o.1, o.2) : ℤ × Rng)
      else
        let o := d2.2.randint 10 80
        (WINDOW_W + o.1, o.2)
    let d4 := d3.2.choice CAR_COLORS ⟨0, 0, 0⟩
    let obs : Obstacle :=
      { rect := ⟨d3.1, y, car_w, car_h⟩, speed := l.speed * l.direction,
        color := d4.1, kind := ObstacleKind.car }
    ({ l with last_spawn_t := d1.1, objects := l.objects ++ [obs] }, d4.2)

/-- Source lines 286-305 (`Lane._spawn_log`). -/
def Lane.spawnLog (l : Lane) (dt : ℚ) (g : Rng) : Lane × Rng :=
  let t := l.last_spawn_t - dt
  if 0 < t then ({ l with last_spawn_t := t }, g)
  else
    let d1 := g.uniform 2 4
    let d2 := d1.2.choice [(8/5 : ℚ), 2, 12/5, 3] (8/5)
    let log_w := pyInt ((TILE : ℚ) * d2.1)
    let log_h := pyInt ((TILE : ℚ) * (7/10))
    let y := l.world_y + (TILE - log_h) / 2
    let d3 := if 0 < l.direction
      then
        let o := d2.2.randint 10 120
        ((-log_w - o.1, o.2) : ℤ × Rng)
      else
        let o := d2.2.randint 10 120
        (WINDOW_W + o.1, o.2)
    let d4 := d3.2.choice LOG_COLORS ⟨0, 0, 0⟩
    let obs : Obstacle :=
      { rect := ⟨d3.1, y, log_w, log_h⟩, speed := l.speed * l.direction,
        color := d4.1, kind := ObstacleKind.log }
    ({ l with last_spawn_t := d1.1, objects := l.objects ++ [obs] }, d4.2)

/-- Source lines 239-252 (`Lane.update`): move every obstacle, cull the
finished ones on hazard lanes, then run the type-specific spawn rule.
(The `t_total` argument of the source is never read and is omitted.) -/
def Lane.update (l : Lane) (dt : ℚ) (g : Rng) : Lane × Rng :=
  let moved := l.objects.map (fun o => o.update dt)
  let kept := if l.lane_type = LaneType.road ∨ l.lane_type = LaneType.river
    then moved.filter (fun o => !Lane.isFarOffscreen o) else moved
  let l' := { l with objects := kept }
  match l.lane_type with
  | LaneType.road => l'.spawnVehicle dt g
  | LaneType.river => l'.spawnLog dt g
  | LaneType.grass => (l', g)

/-! ### Player (source lines 385-457) -/

structure Player where
  x : ℚ
  row : ℤ
  alive : Bool := true
  score_best : ℤ := 0
  score : ℤ := 0
  last_hop_ms : ℤ := 0
  riding_dx : ℚ := 0
  hop_progress : ℚ := 0
  hop_animating : Bool := false
deriving DecidableEq, Repr

/-- Source lines 400-402: the occupied tile in world coordinates. -/
def Player.tile_rect_world (p : Player) : PyRect :=
  ⟨pyInt p.x, -p.row * TILE, TILE, TILE⟩

/-- Source lines 404-407: the tile rect shrunk by an 8-px inset. -/
def Player.rect_world (p : Player) : PyRect :=
  let base := p.tile_rect_world
  ⟨base.x + 8, base.y + 8, base.w - 8 * 2, base.h - 8 * 2⟩

/-- Source lines 409-416: `rect_world` shrunk further by the hitbox inset. -/
def Player.hitbox_world (p : Player) : PyRect :=
  let r := p.rect_world
  ⟨r.x + PLAYER_HITBOX_INSET, r.y + PLAYER_HITBOX_INSET,
   r.w - PLAYER_HITBOX_INSET * 2, r.h - PLAYER_HITBOX_INSET * 2⟩

/-- Source lines 418-419: the hop cooldown has elapsed at time `now`. -/
def Player.can_hop (p : Player) (now : ℤ) : Bool :=
  decide (HOP_COOLDOWN_MS ≤ now - p.last_hop_ms)

/-- Source lines 421-423: nearest tile column to the current x. -/
def Player.gridCol (p : Player) : ℤ := pyRound (p.x / (TILE : ℚ))

/-- Source lines 425-436 (`Player.hop`): rejected while dead or cooling
down; otherwise snap to the clamped target column and to
`max 0 (row + dr)`, and restart the cooldown and the hop animation. -/
def Player.hop (p : Player) (now dc dr : ℤ) : Player :=
  if p.alive = false ∨ now - p.last_hop_ms < HOP_COOLDOWN_MS then p
  else
    let col := clamp (p.gridCol + dc) 0 (GRID_COLS - 1)
    { p with
      last_hop_ms := now,
      hop_animating := true,
      hop_progress := 0,
      x := ((col * TILE : ℤ) : ℚ),
      row := max 0 (p.row + dr) }

/-- Source lines 438-457 (`Player.update`): advance the hop animation,
apply the riding drift when its magnitude reaches the `1e-3` deadband, and
die when the inset rect is fully past either horizontal screen edge. -/
def Player.update (p : Player) (dt : ℚ) : Player :=
  if p.alive = false then p
  else
    let p1 := if p.hop_animating then
        let hp := p.hop_progress + dt * 8
        if 1 ≤ hp then { p with hop_progress := 1, hop_animating := false }
        else { p with hop_progress := hp }
      else p
    let p2 := if 1/1000 ≤ |p1.riding_dx| then { p1 with x := p1.x + p1.riding_dx * dt }
      else p1
    let r := p2.rect_world
    if r.right < 0 ∨ WINDOW_W < r.left then { p2 with alive := false } else p2

/-! ### World: the lane streamer (source lines 531-661) -/

structure World where
  lanes : ℤ → Option Lane
  rng : Rng
  maxGenerated : ℤ

def isHazardOpt : Option Lane → Bool
  | some l => decide (l.lane_type = LaneType.road ∨ l.lane_type = LaneType.river)
  | none => false

/-- The weighted draw of source lines 654-661. -/
def weightedPick (roll : ℚ) : LaneType :=
  if roll < 2/5 then LaneType.grass
  else if roll < 18/25 then LaneType.road
  else LaneType.river

/-- Source lines 633-661 (`World._choose_lane_type`): early rows are grass
or road; later rows are forced grass after two consecutive hazard rows and
otherwise drawn from the weighted distribution. -/
def chooseLaneType (w : World) (row : ℤ) : LaneType × Rng :=
  if row < 10 then
    let p := w.rng.random
    (if p.1 < 3/4 then LaneType.grass else LaneType.road, p.2)
  else
    let prev1 := w.lanes (row - 1)
    let prev2 := w.lanes (row - 2)
    let consecutive : ℤ :=
      (if isHazardOpt prev1 then 1 else 0) +
      (if isHazardOpt prev2 && isHazardOpt prev1 then 1 else 0)
    if 2 ≤ consecutive then (LaneType.grass, w.rng)
    else
      let p := w.rng.random
      (weightedPick p.1, p.2)

/-- The lane construction of source lines 592-629: direction and
decoration seed are drawn first, then the type-specific speed and spawn
timers; a grass lane gets its deterministic tree set (`__post_init__`). -/
def buildLane (pyR : ℤ → ℕ → ℚ) (row : ℤ) (t : LaneType) (g : Rng) : Lane × Rng :=
  let d1 := g.choice [(-1 : ℤ), 1] 1
  let d2 := d1.2.randint 0 999999
  match t with
  | LaneType.grass =>
      ({ lane_type := LaneType.grass, row := row, direction := d1.1, speed := 0,
         spawn_gap := 999, last_spawn_t := 999, objects := [],
         decoration_seed := d2.1,
         tree_positions := generateTreePositions pyR d2.1 }, d2.2)
  | LaneType.road =>
      let s := d2.2.uniform 140 260
      let gp := s.2.uniform (11/5) (9/2)
      let ls := gp.2.uniform 0 (3/2)
      ({ lane_type := LaneType.road, row := row, direction := d1.1, speed := s.1,
         spawn_gap := gp.1, last_spawn_t := ls.1, objects := [],
         decoration_seed := d2.1, tree_positions := [] }, ls.2)
  | LaneType.river =>
      let s := d2.2.uniform 90 180
      let gp := s.2.uniform 2 4
      let ls := gp.2.uniform 0 (3/2)
      ({ lane_type := LaneType.river, row := row, direction := d1.1, speed := s.1,
         spawn_gap := gp.1, last_spawn_t := ls.1, objects := [],
         decoration_seed := d2.1, tree_positions := [] }, ls.2)

/-- Source lines 583-631 (`World._ensure_lane`): a no-op when the row is
already present; otherwise choose (or take the forced) type and insert the
freshly built lane. -/
def ensureLane (pyR : ℤ → ℕ → ℚ) (w : World) (row : ℤ) (force : Option LaneType) : World :=
  if (w.lanes row).isSome then w
  else
    let tg : LaneType × Rng :=
      match force with
      | some t => (t, w.rng)
      | none => chooseLaneType w row
    let lr := buildLane pyR row tg.1 tg.2
    { w with lanes := fun r => if r = row then some lr.1 else w.lanes r, rng := lr.2 }

/-- Python `range(a, b)` over the integers. -/
def intRangeAux (a : ℤ) : ℕ → List ℤ
  | 0 => []
  | n + 1 => a :: intRangeAux (a + 1) n

def intRange (a b : ℤ) : List ℤ := intRangeAux a (b - a).toNat

/-- One iteration of the generation loop of source lines 573-575:
ensure the row, then bump `max_generated_row`. -/
def genStepW (pyR : ℤ → ℕ → ℚ) (w : World) (r : ℤ) : World :=
  let w' := ensureLane pyR w r none
  { w' with maxGenerated := max w'.maxGenerated r }

/-- The generation loop of source lines 572-575. -/
def genRows (pyR : ℤ → ℕ → ℚ) (w : World) (rs : List ℤ) : World :=
  rs.foldl (genStepW pyR) w

/-- Source lines 571-581 (`World._generate_around`): generate every missing
row up to `p + AHEAD_ROWS` in increasing order, then discard the lanes more
than `BEHIND_ROWS + 8` rows behind the player. -/
def generateAround (pyR : ℤ → ℕ → ℚ) (w : World) (p : ℤ) : World :=
  let target := p + AHEAD_ROWS
  let w1 := genRows pyR w (intRange (w.maxGenerated + 1) (target + 1))
  let minKeep := max 0 (p - (BEHIND_ROWS + 8))
  { w1 with lanes := fun r => if r < minKeep then none else w1.lanes r }

/-- A fold of `generateAround` over a sequence of player rows: the
"sequence of ensure-window-around-player updates" of the spec. -/
def genTrace (pyR : ℤ → ℕ → ℚ) (w : World) : List ℤ → World
  | [] => w
  | p :: ps => genTrace pyR (generateAround pyR w p) ps

/-- A placeholder lane; `laneAt` never actually returns it because
`ensureLane` guarantees the looked-up row is present. -/
def defaultLane : Lane :=
  { lane_type := LaneType.grass, row := 0, direction := 1, speed := 0,
    spawn_gap := 999, last_spawn_t := 999, objects := [],
    decoration_seed := 0, tree_positions := [] }

/-- Source lines 546-548 (`World.lane_at`): lazily generate, then return. -/
def laneAt (pyR : ℤ → ℕ → ℚ) (w : World) (row : ℤ) : World × Lane :=
  let w' := ensureLane pyR w row none
  (w', (w'.lanes row).getD defaultLane)

/-- Source lines 537-544 (`World.reset`): clear, adopt a fresh generator,
and force-create the initial band of eight grass lanes.  (`g` stands for
the `random.Random(random.randint(0, 10_000_000))` the source builds.) -/
def resetWorld (pyR : ℤ → ℕ → ℚ) (g : Rng) : World :=
  let w0 : World := { lanes := fun _ => none, rng := g, maxGenerated := -1 }
  (intRange 0 8).foldl (fun w r => ensureLane pyR w r (some LaneType.grass)) w0

/-- Source lines 550-560 (`World.update`): stream lanes around the player,
then advance every retained lane in the update window, threading the
module-level generator `g` through the spawn rules. -/
def worldUpdate (pyR : ℤ → ℕ → ℚ) (w : World) (dt : ℚ) (playerRow : ℤ) (g : Rng) :
    World × Rng :=
  let w1 := generateAround pyR w playerRow
  (intRange (playerRow - BEHIND_ROWS) (playerRow + AHEAD_ROWS + 1)).foldl
    (fun acc r =>
      if r < 0 then acc
      else
        match acc.1.lanes r with
        | none => acc
        | some l =>
            let lr := l.update dt acc.2
            ({ acc.1 with lanes := fun r' => if r' = r then some lr.1 else acc.1.lanes r' },
             lr.2))
    (w1, g)

/-! ### Game: per-tick orchestration (source lines 666-816) -/

structure Game where
  world : World
  player : Player
  grng : Rng
  camera_y : ℤ
  t_total : ℚ
  game_over : Bool

/-- Source lines 799-804 (`Game._player_hit_car`): the player's inset
hitbox against every car's deflated rect. -/
def playerHitCar (lane : Lane) (p : Player) : Bool :=
  lane.objects.any fun o =>
    decide (o.kind = ObstacleKind.car) &&
    PyRect.colliderect p.hitbox_world (o.rect.inflate (-6) (-8))

/-- Source lines 806-816 (`Game._player_on_log`): the first log whose
slightly expanded rect contains the support point near the player's feet. -/
def playerOnLog (lane : Lane) (p : Player) : Option Obstacle :=
  let pr := p.rect_world
  let sx := pr.centerx
  let sy := pr.bottom - 4
  lane.objects.find? fun o =>
    decide (o.kind = ObstacleKind.log) && (o.rect.inflate 10 8).collidepoint sx sy

/-- Source lines 707-722 (`Game._can_move_to`): the move is refused only
when the target cell on a grass lane holds a tree.  The `lane_at` call can
lazily generate the target lane, so the (possibly grown) world is
returned alongside the verdict. -/
def canMoveTo (pyR : ℤ → ℕ → ℚ) (G : Game) (dc dr : ℤ) : Game × Bool :=
  let targetCol := clamp (G.player.gridCol + dc) 0 (GRID_COLS - 1)
  let targetRow := max 0 (G.player.row + dr)
  let wl := laneAt pyR G.world targetRow
  let blocked := decide (wl.2.lane_type = LaneType.grass) && wl.2.has_tree_at targetCol
  ({ G with world := wl.1 }, !blocked)

/-- The directional-key branch of source lines 736-751
(`Game._handle_events`): ignored while dead, validated against the world,
then delegated to `Player.hop` (which applies its own cooldown gate). -/
def applyHop (pyR : ℤ → ℕ → ℚ) (G : Game) (now dc dr : ℤ) : Game :=
  if G.player.alive = false then G
  else
    let gv := canMoveTo pyR G dc dr
    if gv.2 then { gv.1 with player := gv.1.player.hop now dc dr } else gv.1

/-- Source lines 764-766: score is the running maximum of `row - 2`, and
the best score the running maximum of the score. -/
def scorePlayer (p : Player) : Player :=
  let s := max p.score (p.row - 2)
  { p with score := s, score_best := max p.score_best s }

/-- Source lines 768-784: the lane-type-specific interaction rules at the
player's current lane — river support/death and road collision. -/
def resolveInteractions (lane : Lane) (p : Player) : Player :=
  let p4 := if lane.lane_type = LaneType.river then
      match playerOnLog lane p with
      | none => { p with alive := false }
      | some o => { p with riding_dx := o.speed }
    else p
  if decide (lane.lane_type = LaneType.road) && playerHitCar lane p4 then
    { p4 with alive := false }
  else p4

/-- Source lines 788-792: after the drift is applied, re-check the road
collision at the (possibly new) position. -/
def postDriftCheck (pyR : ℤ → ℕ → ℚ) (w : World) (p : Player) : World × Player :=
  if p.alive then
    let wl := laneAt pyR w p.row
    (wl.1,
     if decide (wl.2.lane_type = LaneType.road) && playerHitCar wl.2 p then
       { p with alive := false }
     else p)
  else (w, p)

/-- Source lines 753-797 (`Game._update`): a no-op (except the game-over
flag) once dead; otherwise stream/advance the world, reset the drift,
update the scores, resolve interactions, apply the drift, re-check the
road collision, and smooth the camera. -/
def gameStep (pyR : ℤ → ℕ → ℚ) (G : Game) (dt : ℚ) : Game :=
  if G.player.alive = false then { G with game_over := true }
  else
    let wg := worldUpdate pyR G.world dt G.player.row G.grng
    let p3 := scorePlayer { G.player with riding_dx := 0 }
    let wl := laneAt pyR wg.1 p3.row
    let p5 := resolveInteractions wl.2 p3
    let p6 := p5.update dt
    let wp := postDriftCheck pyR wl.1 p6
    let desired : ℤ := -wp.2.row * TILE - WINDOW_H + 10 * TILE
    { G with
      world := wp.1,
      player := wp.2,
      grng := wg.2,
      camera_y := G.camera_y + pyInt (((desired - G.camera_y : ℤ) : ℚ) * clamp (dt * 6) 0 1) }

/-- Source lines 684-696 (`Game.reset`): reseeded world, player back at the
start cell, everything but the best score and the cooldown stamp cleared. -/
def resetGame (pyR : ℤ → ℕ → ℚ) (G : Game) (g : Rng) : Game :=
  { G with
    world := resetWorld pyR g,
    player := { G.player with
      x := (((GRID_COLS / 2) * TILE : ℤ) : ℚ),
      row := 2,
      alive := true,
      score := 0,
      riding_dx := 0,
      hop_progress := 0,
      hop_animating := false },
    camera_y := -2 * TILE - WINDOW_H + 10 * TILE,
    t_total := 0,
    game_over := false }

/-! ### Shared helper lemmas -/

theorem scorePlayer_x (p : Player) : (scorePlayer p).x = p.x := rfl

theorem scorePlayer_row (p : Player) : (scorePlayer p).row = p.row := rfl

theorem scorePlayer_alive (p : Player) : (scorePlayer p).alive = p.alive := rfl

theorem clamp_mem {v lo hi : ℤ} (h : lo ≤ hi) :
    lo ≤ clamp v lo hi ∧ clamp v lo hi ≤ hi := by
  unfold clamp
  split_ifs with h1 h2 <;> omega

theorem hop_accepted_eq (p : Player) (now dc dr : ℤ)
    (halive : p.alive = true) (hcd : HOP_COOLDOWN_MS ≤ now - p.last_hop_ms) :
    p.hop now dc dr =
      { p with
        last_hop_ms := now,
        hop_animating := true,
        hop_progress := 0,
        x := ((clamp (p.gridCol + dc) 0 (GRID_COLS - 1) * TILE : ℤ) : ℚ),
        row := max 0 (p.row + dr) } := by
  unfold Player.hop
  rw [if_neg]
  push_neg
  exact ⟨by simp [halive], hcd⟩

/-! ### Concrete fixtures used by witnesses and counterexamples -/

/-- A fixed stream standing for every seeded stdlib generator: all draws
are `1/2`. -/
def pyR0 : ℤ → ℕ → ℚ := fun _ _ => 1/2

def rng0 : Rng := { stream := fun _ => 1/2, idx := 0 }

/-! ### C2 — obstacle advance -/

def obsC2 : Obstacle :=
  { rect := ⟨0, 0, 57, 35⟩, speed := 150, color := ⟨232, 80, 84⟩,
    kind := ObstacleKind.car }

/-- C2 counterexample: at `velocity = 150 px/s` and `dt = 0.01 s` the
obstacle's displacement is `int(1.5) = 1` pixel, not the claimed exact
`velocity × dt = 1.5` pixels — `Obstacle.update` truncates to the integer
pixel grid. -/
theorem obstacle_translation_cex :
    ¬ ((((obsC2.update (1/100)).rect.x - obsC2.rect.x : ℤ) : ℚ) =
       obsC2.speed * (1/100)) :=
  of_decide_eq_true (by with_unfolding_all rfl)

/-- C2 (amended): `Obstacle.update dt` adds `int(speed * dt)` — the
product truncated toward zero — to the rect's x, and changes nothing
else. -/
theorem obstacle_update_step (o : Obstacle) (dt : ℚ) :
    (o.update dt).rect.x = o.rect.x + pyInt (o.speed * dt) ∧
    (o.update dt).rect.y = o.rect.y ∧
    (o.update dt).rect.w = o.rect.w ∧
    (o.update dt).rect.h = o.rect.h ∧
    (o.update dt).speed = o.speed ∧
    (o.update dt).color = o.color ∧
    (o.update dt).kind = o.kind :=
  ⟨rfl, rfl, rfl, rfl, rfl, rfl, rfl⟩

/-! ### C3 — row monotonicity -/

def grassLaneAt (r : ℤ) : Lane := { defaultLane with row := r }

def gameC3 : Game :=
  { world :=
      { lanes := fun r => if 0 ≤ r ∧ r ≤ 7 then some (grassLaneAt r) else none,
        rng := rng0, maxGenerated := 7 },
    player := { x := 336, row := 2 },
    grng := rng0, camera_y := 0, t_total := 0, game_over := false }

/-- C3 counterexample: from the starting row 2, an accepted down-hop
(`Δrow = -1`, target cell free, cooldown elapsed) moves the player to
row 1 — the row decreases, and drops below the starting row. -/
theorem row_decrease_cex :
    (applyHop pyR0 gameC3 1000 0 (-1)).player.row = 1 ∧
    (applyHop pyR0 gameC3 1000 0 (-1)).player.row < gameC3.player.row :=
  of_decide_eq_true (by with_unfolding_all rfl)

/-- C3 (amended): an accepted hop sets the row to `max 0 (row + Δrow)`;
the row is therefore bounded below by 0, but a down-hop may decrease it
(and may take it below the starting row 2). -/
theorem hop_row_clamped (p : Player) (now dc dr : ℤ)
    (halive : p.alive = true) (hcd : HOP_COOLDOWN_MS ≤ now - p.last_hop_ms) :
    (p.hop now dc dr).row = max 0 (p.row + dr) ∧ 0 ≤ (p.hop now dc dr).row := by
  rw [hop_accepted_eq p now dc dr halive hcd]
  exact ⟨rfl, le_max_left _ _⟩

def pC3w : Player := { x := 336, row := 2 }

theorem hop_row_clamped_witness :
    pC3w.alive = true ∧ HOP_COOLDOWN_MS ≤ 1000 - pC3w.last_hop_ms ∧
    ((pC3w.hop 1000 0 (-1)).row = max 0 (pC3w.row + (-1)) ∧
     0 ≤ (pC3w.hop 1000 0 (-1)).row) :=
  ⟨of_decide_eq_true (by with_unfolding_all rfl), of_decide_eq_true (by with_unfolding_all rfl),
   hop_row_clamped pC3w 1000 0 (-1) (of_decide_eq_true (by with_unfolding_all rfl))
     (of_decide_eq_true (by with_unfolding_all rfl))⟩

/-! ### C4 — horizontal range -/

def logLaneC4 : Lane :=
  { lane_type := LaneType.river, row := 2, direction := 1, speed := 150,
    spawn_gap := 3, last_spawn_t := 999,
    objects := [{ rect := ⟨640, -89, 96, 33⟩, speed := 150, color := ⟨128, 86, 50⟩,
                  kind := ObstacleKind.log }],
    decoration_seed := 0, tree_positions := [] }

def gameC4 : Game :=
  { world :=
      { lanes := fun r => if r = 2 then some logLaneC4 else none,
        rng := rng0, maxGenerated := 30 },
    player := { x := 672, row := 2 },
    grng := rng0, camera_y := 0, t_total := 0, game_over := false }

/-- C4 counterexample: a player standing on the last column (x = 672,
the top of the claimed range) while supported by a log moving at
+150 px/s is carried to x = 687 > (GRID_COLS-1)·TILE = 672 in one tick
and is still alive — `Player.update` applies the riding drift without
any clamping. -/
theorem x_range_cex :
    (gameStep pyR0 gameC4 (1/10)).player.x = 687 ∧
    (gameStep pyR0 gameC4 (1/10)).player.alive = true ∧
    ¬ ((gameStep pyR0 gameC4 (1/10)).player.x ≤ (((GRID_COLS - 1) * TILE : ℤ) : ℚ)) :=
  of_decide_eq_true (by with_unfolding_all rfl)

/-- C4 (amended): the clamping holds for hops — after any accepted hop
the x position lies in `[0, (GRID_COLS-1)·TILE]` — but riding drift can
carry the continuous x position outside that range while the player stays
alive, until full horizontal ejection kills them. -/
theorem hop_x_clamped (p : Player) (now dc dr : ℤ)
    (halive : p.alive = true) (hcd : HOP_COOLDOWN_MS ≤ now - p.last_hop_ms) :
    0 ≤ (p.hop now dc dr).x ∧
    (p.hop now dc dr).x ≤ (((GRID_COLS - 1) * TILE : ℤ) : ℚ) := by
  rw [hop_accepted_eq p now dc dr halive hcd]
  dsimp only
  have hb := @clamp_mem (p.gridCol + dc) 0 (GRID_COLS - 1)
    (by unfold GRID_COLS WINDOW_W TILE; omega)
  constructor
  · have : (0 : ℤ) ≤ clamp (p.gridCol + dc) 0 (GRID_COLS - 1) * TILE := by
      have := hb.1
      unfold GRID_COLS WINDOW_W TILE at *
      omega
    exact_mod_cast this
  · have : clamp (p.gridCol + dc) 0 (GRID_COLS - 1) * TILE ≤ (GRID_COLS - 1) * TILE := by
      have := hb.2
      unfold GRID_COLS WINDOW_W TILE at *
      omega
    exact_mod_cast this

def pC4w : Player := { x := 672, row := 2 }

theorem hop_x_clamped_witness :
    pC4w.alive = true ∧ HOP_COOLDOWN_MS ≤ 1000 - pC4w.last_hop_ms ∧
    (0 ≤ (pC4w.hop 1000 1 0).x ∧
     (pC4w.hop 1000 1 0).x ≤ (((GRID_COLS - 1) * TILE : ℤ) : ℚ)) :=
  ⟨of_decide_eq_true (by with_unfolding_all rfl),
   of_decide_eq_true (by with_unfolding_all rfl),
   hop_x_clamped pC4w 1000 1 0 (of_decide_eq_true (by with_unfolding_all rfl))
     (of_decide_eq_true (by with_unfolding_all rfl))⟩

/-! ### C7 — illegal hops are silently ignored -/

/-- C7: a hop request whose target cell is blocked (`_can_move_to` says
no: a tree column on a grass lane) or which arrives before the cooldown
has elapsed leaves the player record — row, column, x, cooldown
timestamp, alive flag — completely unchanged; every function involved is
total, so no error is possible. -/
theorem illegal_hop_ignored (pyR : ℤ → ℕ → ℚ) (G : Game) (now dc dr : ℤ)
    (h : (canMoveTo pyR G dc dr).2 = false ∨
         now - G.player.last_hop_ms < HOP_COOLDOWN_MS) :
    (applyHop pyR G now dc dr).player = G.player := by
  unfold applyHop
  by_cases ha : G.player.alive = false
  · rw [if_pos ha]
  · rw [if_neg ha]
    dsimp only
    rcases h with h | h
    · rw [h]
      simp only [Bool.false_eq_true, if_false]
      rfl
    · by_cases hv : (canMoveTo pyR G dc dr).2 = true
      · rw [if_pos hv]
        dsimp only
        have hp : (canMoveTo pyR G dc dr).1.player = G.player := rfl
        rw [hp]
        unfold Player.hop
        rw [if_pos (Or.inr h)]
      · rw [if_neg hv]
        rfl

def treeLaneC7 : Lane :=
  { defaultLane with row := 3, tree_positions := [7] }

def gameC7 : Game :=
  { world :=
      { lanes := fun r =>
          if r = 3 then some treeLaneC7
          else if 0 ≤ r ∧ r ≤ 7 then some (grassLaneAt r) else none,
        rng := rng0, maxGenerated := 7 },
    player := { x := 336, row := 2 },
    grng := rng0, camera_y := 0, t_total := 0, game_over := false }

theorem illegal_hop_ignored_witness :
    ((canMoveTo pyR0 gameC7 0 1).2 = false ∨
     1000 - gameC7.player.last_hop_ms < HOP_COOLDOWN_MS) ∧
    (applyHop pyR0 gameC7 1000 0 1).player = gameC7.player :=
  ⟨Or.inl (of_decide_eq_true (by with_unfolding_all rfl)),
   illegal_hop_ignored pyR0 gameC7 1000 0 1
     (Or.inl (of_decide_eq_true (by with_unfolding_all rfl)))⟩

/-! ### C9 — death is terminal -/

/-- C9: with `alive = false` the simulation step leaves the player record
(position, row, score, alive flag) untouched and only raises the
game-over flag; hop commands are ignored entirely; and an explicit reset
is the (only) operation among these that sets `alive` back to `true`. -/
theorem death_terminal (pyR : ℤ → ℕ → ℚ) (G : Game) (dt : ℚ) (now dc dr : ℤ) (g : Rng)
    (h : G.player.alive = false) :
    (gameStep pyR G dt).player = G.player ∧
    (gameStep pyR G dt).player.alive = false ∧
    (gameStep pyR G dt).game_over = true ∧
    applyHop pyR G now dc dr = G ∧
    (resetGame pyR G g).player.alive = true := by
  constructor
  · unfold gameStep; rw [if_pos h]
  constructor
  · unfold gameStep; rw [if_pos h]; exact h
  constructor
  · unfold gameStep; rw [if_pos h]
  constructor
  · unfold applyHop; rw [if_pos h]
  · rfl

def gameC9 : Game :=
  { world :=
      { lanes := fun r => if 0 ≤ r ∧ r ≤ 7 then some (grassLaneAt r) else none,
        rng := rng0, maxGenerated := 7 },
    player := { x := 336, row := 2, alive := false },
    grng := rng0, camera_y := 0, t_total := 0, game_over := false }

theorem death_terminal_witness :
    gameC9.player.alive = false ∧
    ((gameStep pyR0 gameC9 (1/60)).player = gameC9.player ∧
     (gameStep pyR0 gameC9 (1/60)).player.alive = false ∧
     (gameStep pyR0 gameC9 (1/60)).game_over = true ∧
     applyHop pyR0 gameC9 1000 0 1 = gameC9 ∧
     (resetGame pyR0 gameC9 rng0).player.alive = true) :=
  ⟨of_decide_eq_true (by with_unfolding_all rfl),
   death_terminal pyR0 gameC9 (1/60) 1000 0 1 rng0
     (of_decide_eq_true (by with_unfolding_all rfl))⟩

/-! ### C10 — null hops are still accepted -/

/-- C10: for an alive player whose cooldown has elapsed and whose
validated hop clamps back onto the current cell (same column after
clamping, same row after the `max 0` floor), the hop is still accepted —
the cooldown timestamp is reset, the hop animation restarts, and the
continuous x is snapped to the current grid column (discarding any
fractional offset picked up while riding), while row and column are
unchanged. -/
theorem null_hop_accepted (pyR : ℤ → ℕ → ℚ) (G : Game) (now dc dr : ℤ)
    (halive : G.player.alive = true)
    (hcd : HOP_COOLDOWN_MS ≤ now - G.player.last_hop_ms)
    (hok : (canMoveTo pyR G dc dr).2 = true)
    (hcol : clamp (G.player.gridCol + dc) 0 (GRID_COLS - 1) = G.player.gridCol)
    (hrow : max 0 (G.player.row + dr) = G.player.row) :
    (applyHop pyR G now dc dr).player =
      { G.player with
        x := ((G.player.gridCol * TILE : ℤ) : ℚ),
        last_hop_ms := now,
        hop_animating := true,
        hop_progress := 0 } := by
  unfold applyHop
  rw [if_neg (by simp [halive])]
  dsimp only
  rw [if_pos hok]
  dsimp only
  have hp : (canMoveTo pyR G dc dr).1.player = G.player := rfl
  rw [hp, hop_accepted_eq G.player now dc dr halive hcd, hcol, hrow]

def gameC10 : Game :=
  { world :=
      { lanes := fun r => if 0 ≤ r ∧ r ≤ 7 then some (grassLaneAt r) else none,
        rng := rng0, maxGenerated := 7 },
    player := { x := 3, row := 0 },
    grng := rng0, camera_y := 0, t_total := 0, game_over := false }

theorem null_hop_accepted_witness :
    gameC10.player.alive = true ∧
    HOP_COOLDOWN_MS ≤ 1000 - gameC10.player.last_hop_ms ∧
    (canMoveTo pyR0 gameC10 (-1) (-1)).2 = true ∧
    clamp (gameC10.player.gridCol + (-1)) 0 (GRID_COLS - 1) = gameC10.player.gridCol ∧
    max 0 (gameC10.player.row + (-1)) = gameC10.player.row ∧
    (applyHop pyR0 gameC10 1000 (-1) (-1)).player =
      { gameC10.player with
        x := ((gameC10.player.gridCol * TILE : ℤ) : ℚ),
        last_hop_ms := 1000,
        hop_animating := true,
        hop_progress := 0 } :=
  ⟨of_decide_eq_true (by with_unfolding_all rfl),
   of_decide_eq_true (by with_unfolding_all rfl),
   of_decide_eq_true (by with_unfolding_all rfl),
   of_decide_eq_true (by with_unfolding_all rfl),
   of_decide_eq_true (by with_unfolding_all rfl),
   null_hop_accepted pyR0 gameC10 1000 (-1) (-1)
     (of_decide_eq_true (by with_unfolding_all rfl))
     (of_decide_eq_true (by with_unfolding_all rfl))
     (of_decide_eq_true (by with_unfolding_all rfl))
     (of_decide_eq_true (by with_unfolding_all rfl))
     (of_decide_eq_true (by with_unfolding_all rfl))⟩

/-! ### C1 — the riding invariant -/

theorem resolveInteractions_river_log (lane : Lane) (p : Player) (O : Obstacle)
    (hl : lane.lane_type = LaneType.river) (hO : playerOnLog lane p = some O) :
    resolveInteractions lane p = { p with riding_dx := O.speed } := by
  unfold resolveInteractions
  rw [hl, hO]
  simp

theorem update_x_drift (p : Player) (dt : ℚ)
    (ha : p.alive = true) (hr : 1/1000 ≤ |p.riding_dx|) :
    (p.update dt).x = p.x + p.riding_dx * dt := by
  unfold Player.update
  rw [if_neg (by simp [ha])]
  dsimp only
  split_ifs <;> rfl

theorem postDriftCheck_x (pyR : ℤ → ℕ → ℚ) (w : World) (p : Player) :
    (postDriftCheck pyR w p).2.x = p.x := by
  unfold postDriftCheck
  split_ifs with h1
  · dsimp only
    split_ifs with h2 <;> rfl
  · rfl

/-- C1: over a tick in which the player is alive, sits on a river lane,
is supported by obstacle `O` (the support point lies in `O`'s expanded
rectangle after the world advance), and issues no hop, the player's
horizontal displacement is exactly `O.speed * dt` — with `O.speed = 150`
and `dt = 1/10` the x position grows by exactly 15 px.  (The `1e-3`
drift deadband hypothesis is satisfied by every spawned log, whose speed
magnitude lies in `[90, 180]`.) -/
theorem riding_displacement (pyR : ℤ → ℕ → ℚ) (G : Game) (dt : ℚ) (O : Obstacle)
    (halive : G.player.alive = true)
    (hriver : (laneAt pyR (worldUpdate pyR G.world dt G.player.row G.grng).1
        G.player.row).2.lane_type = LaneType.river)
    (hsup : playerOnLog (laneAt pyR (worldUpdate pyR G.world dt G.player.row G.grng).1
        G.player.row).2 G.player = some O)
    (hspd : 1/1000 ≤ |O.speed|) :
    (gameStep pyR G dt).player.x = G.player.x + O.speed * dt := by
  unfold gameStep
  rw [if_neg (by simp [halive])]
  dsimp only
  have hrow3 : (scorePlayer { G.player with riding_dx := 0 }).row = G.player.row := rfl
  rw [hrow3]
  rw [resolveInteractions_river_log _ _ O hriver (by exact hsup)]
  rw [postDriftCheck_x]
  rw [update_x_drift _ dt (by exact halive) (by exact hspd)]
  rfl

def logLaneC1 : Lane :=
  { lane_type := LaneType.river, row := 2, direction := 1, speed := 150,
    spawn_gap := 3, last_spawn_t := 999,
    objects := [{ rect := ⟨60, -89, 96, 33⟩, speed := 150, color := ⟨128, 86, 50⟩,
                  kind := ObstacleKind.log }],
    decoration_seed := 0, tree_positions := [] }

def obsC1 : Obstacle :=
  { rect := ⟨75, -89, 96, 33⟩, speed := 150, color := ⟨128, 86, 50⟩,
    kind := ObstacleKind.log }

def gameC1 : Game :=
  { world :=
      { lanes := fun r => if r = 2 then some logLaneC1 else none,
        rng := rng0, maxGenerated := 30 },
    player := { x := 96, row := 2 },
    grng := rng0, camera_y := 0, t_total := 0, game_over := false }

theorem riding_displacement_witness :
    gameC1.player.alive = true ∧
    (laneAt pyR0 (worldUpdate pyR0 gameC1.world (1/10) gameC1.player.row gameC1.grng).1
        gameC1.player.row).2.lane_type = LaneType.river ∧
    playerOnLog (laneAt pyR0 (worldUpdate pyR0 gameC1.world (1/10) gameC1.player.row
        gameC1.grng).1 gameC1.player.row).2 gameC1.player = some obsC1 ∧
    (gameStep pyR0 gameC1 (1/10)).player.x = gameC1.player.x + obsC1.speed * (1/10) :=
  ⟨of_decide_eq_true (by with_unfolding_all rfl),
   of_decide_eq_true (by with_unfolding_all rfl),
   of_decide_eq_true (by with_unfolding_all rfl),
   riding_displacement pyR0 gameC1 (1/10) obsC1
     (of_decide_eq_true (by with_unfolding_all rfl))
     (of_decide_eq_true (by with_unfolding_all rfl))
     (of_decide_eq_true (by with_unfolding_all rfl))
     (of_decide_eq_true (by with_unfolding_all rfl))⟩

/-! ### Structural lemmas about lane generation -/

theorem ensureLane_of_present (pyR : ℤ → ℕ → ℚ) (w : World) (row : ℤ)
    (force : Option LaneType) (h : (w.lanes row).isSome = true) :
    ensureLane pyR w row force = w := by
  unfold ensureLane
  rw [if_pos h]

theorem ensureLane_other (pyR : ℤ → ℕ → ℚ) (w : World) (row : ℤ)
    (force : Option LaneType) (r : ℤ) (h : r ≠ row) :
    (ensureLane pyR w row force).lanes r = w.lanes r := by
  unfold ensureLane
  split_ifs with h1
  · rfl
  · dsimp only
    rw [if_neg h]

theorem ensureLane_some (pyR : ℤ → ℕ → ℚ) (w : World) (row : ℤ)
    (force : Option LaneType) (r : ℤ) (L : Lane) (h : w.lanes r = some L) :
    (ensureLane pyR w row force).lanes r = some L := by
  by_cases hr : r = row
  · subst hr
    rw [ensureLane_of_present pyR w r force (by rw [h]; rfl)]
    exact h
  · rw [ensureLane_other pyR w row force r hr]
    exact h

theorem ensureLane_isSome_mono (pyR : ℤ → ℕ → ℚ) (w : World) (row : ℤ)
    (force : Option LaneType) (r : ℤ) (h : (w.lanes r).isSome = true) :
    ((ensureLane pyR w row force).lanes r).isSome = true := by
  obtain ⟨L, hL⟩ := Option.isSome_iff_exists.mp h
  rw [ensureLane_some pyR w row force r L hL]
  rfl

theorem ensureLane_self_isSome (pyR : ℤ → ℕ → ℚ) (w : World) (row : ℤ)
    (force : Option LaneType) :
    ((ensureLane pyR w row force).lanes row).isSome = true := by
  unfold ensureLane
  split_ifs with h1
  · exact h1
  · dsimp only
    rw [if_pos rfl]
    rfl

theorem ensureLane_maxGen (pyR : ℤ → ℕ → ℚ) (w : World) (row : ℤ)
    (force : Option LaneType) :
    (ensureLane pyR w row force).maxGenerated = w.maxGenerated := by
  unfold ensureLane
  split_ifs with h1 <;> rfl

theorem buildLane_type (pyR : ℤ → ℕ → ℚ) (row : ℤ) (t : LaneType) (g : Rng) :
    (buildLane pyR row t g).1.lane_type = t := by
  cases t <;> rfl

theorem ensureLane_new (pyR : ℤ → ℕ → ℚ) (w : World) (row : ℤ)
    (h : w.lanes row = none) :
    (ensureLane pyR w row none).lanes row =
      some (buildLane pyR row (chooseLaneType w row).1 (chooseLaneType w row).2).1 := by
  unfold ensureLane
  rw [if_neg (by rw [h]; simp)]
  dsimp only
  rw [if_pos rfl]

theorem genStepW_maxGen (pyR : ℤ → ℕ → ℚ) (w : World) (r : ℤ) :
    (genStepW pyR w r).maxGenerated = max w.maxGenerated r := by
  unfold genStepW
  dsimp only
  rw [ensureLane_maxGen]

theorem genStepW_lanes (pyR : ℤ → ℕ → ℚ) (w : World) (r r' : ℤ) :
    (genStepW pyR w r).lanes r' = (ensureLane pyR w r none).lanes r' := rfl

theorem isHazardOpt_isSome {o : Option Lane} (h : isHazardOpt o = true) :
    o.isSome = true := by
  cases o
  · simp [isHazardOpt] at h
  · rfl

theorem isHazardOpt_grass {L : Lane} (h : L.lane_type = LaneType.grass) :
    isHazardOpt (some L) = false := by
  simp [isHazardOpt, h]

theorem mem_intRangeAux : ∀ (n : ℕ) (a x : ℤ), x ∈ intRangeAux a n → a ≤ x ∧ x < a + n := by
  intro n
  induction n with
  | zero => intro a x hx; simp [intRangeAux] at hx
  | succ m ih =>
      intro a x hx
      rw [intRangeAux] at hx
      rcases List.mem_cons.mp hx with h | h
      · subst h; constructor <;> omega
      · have := ih (a + 1) x h
        push_cast at this ⊢
        omega

/-! ### The generation invariants -/

/-- Well-formedness of the streamed world: the counter never drops below
its initial `-1`, and every present row lies in `[0, max maxGenerated 7]`
(the initial grass band occupies rows 0-7 before the counter catches up). -/
def Bound (w : World) : Prop :=
  -1 ≤ w.maxGenerated ∧
  ∀ r : ℤ, (w.lanes r).isSome = true → 0 ≤ r ∧ r ≤ max w.maxGenerated 7

/-- The anti-streak invariant: no three consecutive hazardous lanes ending
at a row `≥ 10`. -/
def NoTriple (w : World) : Prop :=
  ∀ r : ℤ, 10 ≤ r →
    ¬ (isHazardOpt (w.lanes r) = true ∧ isHazardOpt (w.lanes (r - 1)) = true ∧
       isHazardOpt (w.lanes (r - 2)) = true)

theorem chooseLaneType_forced (w : World) (row : ℤ) (h10 : 10 ≤ row)
    (h1 : isHazardOpt (w.lanes (row - 1)) = true)
    (h2 : isHazardOpt (w.lanes (row - 2)) = true) :
    (chooseLaneType w row).1 = LaneType.grass := by
  unfold chooseLaneType
  rw [if_neg (by omega : ¬ row < 10)]
  dsimp only
  rw [h1, h2]
  norm_num

theorem chooseLaneType_weighted (w : World) (row : ℤ) (h10 : 10 ≤ row)
    (h : ¬ (isHazardOpt (w.lanes (row - 1)) = true ∧
            isHazardOpt (w.lanes (row - 2)) = true)) :
    (chooseLaneType w row).1 = weightedPick (w.rng.random).1 := by
  unfold chooseLaneType
  rw [if_neg (by omega : ¬ row < 10)]
  dsimp only
  by_cases hb1 : isHazardOpt (w.lanes (row - 1)) = true
  · have hb2 : isHazardOpt (w.lanes (row - 2)) = false := by
      rcases Bool.eq_false_or_eq_true (isHazardOpt (w.lanes (row - 2))) with h' | h'
      · exact absurd ⟨hb1, h'⟩ h
      · exact h'
    rw [hb1, hb2]
    norm_num
  · have hb1' : isHazardOpt (w.lanes (row - 1)) = false := by
      rcases Bool.eq_false_or_eq_true (isHazardOpt (w.lanes (row - 1))) with h' | h'
      · exact absurd h' hb1
      · exact h'
    rw [hb1']
    norm_num

theorem option_eq_none_of_not_isSome {o : Option Lane}
    (h : ¬ o.isSome = true) : o = none := by
  cases o
  · rfl
  · exact absurd rfl h

/-- One generation step at a fresh row `r0` above the counter preserves
both invariants, grows the counter to `max maxGenerated r0`, keeps every
present row, and makes `r0` present. -/
theorem genStepW_inv (pyR : ℤ → ℕ → ℚ) (w : World) (r0 : ℤ)
    (hB : Bound w) (hT : NoTriple w) (hr0 : w.maxGenerated < r0) :
    Bound (genStepW pyR w r0) ∧ NoTriple (genStepW pyR w r0) ∧
    (genStepW pyR w r0).maxGenerated = max w.maxGenerated r0 ∧
    (∀ r, (w.lanes r).isSome = true → ((genStepW pyR w r0).lanes r).isSome = true) ∧
    ((genStepW pyR w r0).lanes r0).isSome = true := by
  obtain ⟨hBm, hBr⟩ := hB
  have hmax := genStepW_maxGen pyR w r0
  have hmono : ∀ r, (w.lanes r).isSome = true →
      ((genStepW pyR w r0).lanes r).isSome = true := by
    intro r h
    rw [genStepW_lanes]
    exact ensureLane_isSome_mono pyR w r0 none r h
  have hself : ((genStepW pyR w r0).lanes r0).isSome = true := by
    rw [genStepW_lanes]
    exact ensureLane_self_isSome pyR w r0 none
  by_cases hpres : (w.lanes r0).isSome = true
  · have hlaneseq : ∀ s, (genStepW pyR w r0).lanes s = w.lanes s := by
      intro s
      rw [genStepW_lanes, ensureLane_of_present pyR w r0 none hpres]
    refine ⟨⟨?_, ?_⟩, ?_, hmax, hmono, hself⟩
    · rw [hmax]; exact le_trans hBm (le_max_left _ _)
    · intro r h
      rw [hlaneseq] at h
      obtain ⟨h0, h7⟩ := hBr r h
      refine ⟨h0, ?_⟩
      rw [hmax]
      exact le_trans h7 (max_le_max (le_max_left _ _) le_rfl)
    · intro r h10 hc
      rcases hc with ⟨h1, h2, h3⟩
      rw [hlaneseq] at h1 h2 h3
      exact hT r h10 ⟨h1, h2, h3⟩
  · have hnone : w.lanes r0 = none := option_eq_none_of_not_isSome hpres
    have heq : ∀ s, (genStepW pyR w r0).lanes s =
        if s = r0 then
          some (buildLane pyR r0 (chooseLaneType w r0).1 (chooseLaneType w r0).2).1
        else w.lanes s := by
      intro s
      by_cases hs : s = r0
      · subst hs
        rw [genStepW_lanes, ensureLane_new pyR w s hnone, if_pos rfl]
      · rw [genStepW_lanes, ensureLane_other pyR w r0 none s hs, if_neg hs]
    refine ⟨⟨?_, ?_⟩, ?_, hmax, hmono, hself⟩
    · rw [hmax]; exact le_trans hBm (le_max_left _ _)
    · intro r h
      rw [heq] at h
      by_cases hs : r = r0
      · subst hs
        constructor
        · omega
        · rw [hmax]
          exact le_trans (le_max_right w.maxGenerated r) (le_max_left _ _)
      · rw [if_neg hs] at h
        obtain ⟨h0, h7⟩ := hBr r h
        refine ⟨h0, ?_⟩
        rw [hmax]
        exact le_trans h7 (max_le_max (le_max_left _ _) le_rfl)
    · intro r h10 hc
      rcases hc with ⟨h1, h2, h3⟩
      rw [heq] at h1 h2 h3
      by_cases e1 : r = r0
      · subst e1
        rw [if_pos rfl] at h1
        rw [if_neg (by omega : ¬ r - 1 = r)] at h2
        rw [if_neg (by omega : ¬ r - 2 = r)] at h3
        have hgr : (chooseLaneType w r).1 = LaneType.grass :=
          chooseLaneType_forced w r h10 h2 h3
        rw [isHazardOpt_grass (by rw [buildLane_type]; exact hgr)] at h1
        exact Bool.false_ne_true h1
      · rw [if_neg e1] at h1
        by_cases e2 : r - 1 = r0
        · have hsome := isHazardOpt_isSome h1
          obtain ⟨h0, h7⟩ := hBr r hsome
          have : r ≤ max w.maxGenerated 7 := h7
          have hlt : max w.maxGenerated 7 < r := max_lt (by omega) (by omega)
          omega
        · rw [if_neg e2] at h2
          by_cases e3 : r - 2 = r0
          · have hsome := isHazardOpt_isSome h1
            obtain ⟨h0, h7⟩ := hBr r hsome
            have hlt : max w.maxGenerated 7 < r := max_lt (by omega) (by omega)
            omega
          · rw [if_neg e3] at h3
            exact hT r h10 ⟨h1, h2, h3⟩

/-- The ascending generation loop, starting just above the counter,
preserves the invariants, advances the counter by the number of rows
processed, keeps every present row, and fills every row it visits. -/
theorem genRows_inv (pyR : ℤ → ℕ → ℚ) :
    ∀ (n : ℕ) (w : World), Bound w → NoTriple w →
    Bound (genRows pyR w (intRangeAux (w.maxGenerated + 1) n)) ∧
    NoTriple (genRows pyR w (intRangeAux (w.maxGenerated + 1) n)) ∧
    (genRows pyR w (intRangeAux (w.maxGenerated + 1) n)).maxGenerated
      = w.maxGenerated + n ∧
    (∀ r, (w.lanes r).isSome = true →
      ((genRows pyR w (intRangeAux (w.maxGenerated + 1) n)).lanes r).isSome = true) ∧
    (∀ r, w.maxGenerated < r → r ≤ w.maxGenerated + n →
      ((genRows pyR w (intRangeAux (w.maxGenerated + 1) n)).lanes r).isSome = true) := by
  intro n
  induction n with
  | zero =>
      intro w hB hT
      refine ⟨hB, hT, by simp [genRows, intRangeAux], ?_, ?_⟩
      · intro r h
        exact h
      · intro r h1 h2
        push_cast at h2
        omega
  | succ m ih =>
      intro w hB hT
      have hstep := genStepW_inv pyR w (w.maxGenerated + 1) hB hT (by omega)
      obtain ⟨hB1, hT1, hmax1, hmono1, hself1⟩ := hstep
      have hmax' : (genStepW pyR w (w.maxGenerated + 1)).maxGenerated
          = w.maxGenerated + 1 := by
        rw [hmax1]
        exact max_eq_right (by omega)
      have hfold : genRows pyR w (intRangeAux (w.maxGenerated + 1) (m + 1)) =
          genRows pyR (genStepW pyR w (w.maxGenerated + 1))
            (intRangeAux ((genStepW pyR w (w.maxGenerated + 1)).maxGenerated + 1) m) := by
        rw [hmax']
        rfl
      obtain ⟨hB2, hT2, hmax2, hmono2, hnew2⟩ :=
        ih (genStepW pyR w (w.maxGenerated + 1)) hB1 hT1
      refine ⟨?_, ?_, ?_, ?_, ?_⟩
      · rw [hfold]; exact hB2
      · rw [hfold]; exact hT2
      · rw [hfold, hmax2, hmax']
        push_cast
        ring
      · intro r h
        rw [hfold]
        exact hmono2 r (hmono1 r h)
      · intro r hgt hle
        rw [hfold]
        by_cases hr : r = w.maxGenerated + 1
        · subst hr
          exact hmono2 _ hself1
        · refine hnew2 r ?_ ?_
          · rw [hmax']; omega
          · rw [hmax']; push_cast at hle ⊢; omega

theorem haz_prune {w : World} {k s : ℤ}
    (h : isHazardOpt (if s < k then none else w.lanes s) = true) :
    isHazardOpt (w.lanes s) = true := by
  by_cases hs : s < k
  · rw [if_pos hs] at h
    simp [isHazardOpt] at h
  · rw [if_neg hs] at h
    exact h

theorem prune_Bound (w : World) (k : ℤ) (hB : Bound w) :
    Bound { w with lanes := fun r => if r < k then none else w.lanes r } := by
  obtain ⟨h1, h2⟩ := hB
  refine ⟨h1, ?_⟩
  intro r h
  dsimp only at h
  by_cases hr : r < k
  · rw [if_pos hr] at h
    simp at h
  · rw [if_neg hr] at h
    exact h2 r h

theorem prune_NoTriple (w : World) (k : ℤ) (hT : NoTriple w) :
    NoTriple { w with lanes := fun r => if r < k then none else w.lanes r } := by
  intro r h10 hc
  obtain ⟨h1, h2, h3⟩ := hc
  dsimp only at h1 h2 h3
  exact hT r h10 ⟨haz_prune h1, haz_prune h2, haz_prune h3⟩

theorem generateAround_inv (pyR : ℤ → ℕ → ℚ) (w : World) (p : ℤ)
    (hB : Bound w) (hT : NoTriple w) :
    Bound (generateAround pyR w p) ∧ NoTriple (generateAround pyR w p) := by
  obtain ⟨hB1, hT1, _, _, _⟩ :=
    genRows_inv pyR ((p + AHEAD_ROWS + 1 - (w.maxGenerated + 1)).toNat) w hB hT
  unfold generateAround intRange
  dsimp only
  exact ⟨prune_Bound _ _ hB1, prune_NoTriple _ _ hT1⟩

theorem ensureLane_new_forced (pyR : ℤ → ℕ → ℚ) (w : World) (row : ℤ) (t : LaneType)
    (h : w.lanes row = none) :
    (ensureLane pyR w row (some t)).lanes row = some (buildLane pyR row t w.rng).1 := by
  unfold ensureLane
  rw [if_neg (by rw [h]; simp)]
  dsimp only
  rw [if_pos rfl]

theorem foldl_ensureGrass_maxGen (pyR : ℤ → ℕ → ℚ) :
    ∀ (rs : List ℤ) (w : World),
      ((rs.foldl (fun w r => ensureLane pyR w r (some LaneType.grass)) w).maxGenerated)
        = w.maxGenerated := by
  intro rs
  induction rs with
  | nil => intro w; rfl
  | cons a t ih =>
      intro w
      rw [List.foldl_cons, ih, ensureLane_maxGen]

theorem foldl_ensureGrass_lanes (pyR : ℤ → ℕ → ℚ) :
    ∀ (rs : List ℤ) (w : World),
      (∀ r L, w.lanes r = some L → L.lane_type = LaneType.grass ∧ 0 ≤ r ∧ r ≤ 7) →
      (∀ k ∈ rs, 0 ≤ k ∧ k ≤ 7) →
      ∀ r L,
        ((rs.foldl (fun w k => ensureLane pyR w k (some LaneType.grass)) w).lanes r
          = some L) →
        L.lane_type = LaneType.grass ∧ 0 ≤ r ∧ r ≤ 7 := by
  intro rs
  induction rs with
  | nil =>
      intro w hw _ r L h
      exact hw r L h
  | cons a t ih =>
      intro w hw hmem r L h
      rw [List.foldl_cons] at h
      refine ih _ ?_ (fun k hk => hmem k (List.mem_cons_of_mem a hk)) r L h
      intro r' L' h'
      by_cases hpres : (w.lanes a).isSome = true
      · rw [ensureLane_of_present pyR w _ _ hpres] at h'
        exact hw r' L' h'
      · by_cases hr : r' = a
        · subst hr
          have hnone := option_eq_none_of_not_isSome hpres
          rw [ensureLane_new_forced pyR w _ LaneType.grass hnone] at h'
          have hL' : L' = (buildLane pyR r' LaneType.grass w.rng).1 :=
            (Option.some_injective _ h').symm
          subst hL'
          have hb := hmem r' (List.mem_cons_self r' t)
          exact ⟨buildLane_type pyR _ _ _, hb.1, hb.2⟩
        · rw [ensureLane_other pyR w _ _ _ hr] at h'
          exact hw r' L' h'

theorem resetWorld_lanes_grass (pyR : ℤ → ℕ → ℚ) (g : Rng) (r : ℤ) (L : Lane)
    (h : (resetWorld pyR g).lanes r = some L) :
    L.lane_type = LaneType.grass ∧ 0 ≤ r ∧ r ≤ 7 := by
  simp only [resetWorld] at h
  refine foldl_ensureGrass_lanes pyR (intRange 0 8) _ ?_ ?_ r L h
  · intro r' L' h'
    exact Option.noConfusion h'
  · intro k hk
    have h8 : intRange 0 8 = intRangeAux 0 8 := by with_unfolding_all rfl
    rw [h8] at hk
    have := mem_intRangeAux 8 0 k hk
    omega

theorem resetWorld_maxGen (pyR : ℤ → ℕ → ℚ) (g : Rng) :
    (resetWorld pyR g).maxGenerated = -1 := by
  simp only [resetWorld]
  rw [foldl_ensureGrass_maxGen]

theorem resetWorld_Bound (pyR : ℤ → ℕ → ℚ) (g : Rng) : Bound (resetWorld pyR g) := by
  constructor
  · rw [resetWorld_maxGen]
  · intro r h
    obtain ⟨L, hL⟩ := Option.isSome_iff_exists.mp h
    obtain ⟨_, h0, h7⟩ := resetWorld_lanes_grass pyR g r L hL
    refine ⟨h0, ?_⟩
    rw [resetWorld_maxGen]
    have hm : max (-1 : ℤ) 7 = 7 := by norm_num
    rw [hm]
    exact h7

theorem resetWorld_NoTriple (pyR : ℤ → ℕ → ℚ) (g : Rng) :
    NoTriple (resetWorld pyR g) := by
  intro r h10 hc
  obtain ⟨h1, _, _⟩ := hc
  rcases hw : (resetWorld pyR g).lanes r with _ | L
  · rw [hw] at h1
    simp [isHazardOpt] at h1
  · obtain ⟨hg, _, _⟩ := resetWorld_lanes_grass pyR g r L hw
    rw [hw, isHazardOpt_grass hg] at h1
    exact Bool.false_ne_true h1

theorem genTrace_inv (pyR : ℤ → ℕ → ℚ) :
    ∀ (ps : List ℤ) (w : World), Bound w → NoTriple w →
      Bound (genTrace pyR w ps) ∧ NoTriple (genTrace pyR w ps) := by
  intro ps
  induction ps with
  | nil =>
      intro w hB hT
      exact ⟨hB, hT⟩
  | cons p t ih =>
      intro w hB hT
      obtain ⟨hB1, hT1⟩ := generateAround_inv pyR w p hB hT
      exact ih _ hB1 hT1

/-! ### C5 — the anti-streak invariant -/

/-- C5: after any sequence of world-generation steps from a reset, for
every row `r ≥ 10` the three lanes at `r, r-1, r-2` are never all
hazardous; moreover the selection policy forces grass exactly when the
two preceding lanes are both hazardous, and otherwise the new type is
the fixed weighted draw. -/
theorem no_triple_hazard (pyR : ℤ → ℕ → ℚ) (g : Rng) (ps : List ℤ) (r : ℤ)
    (h10 : 10 ≤ r) :
    (¬ (isHazardOpt ((genTrace pyR (resetWorld pyR g) ps).lanes r) = true ∧
        isHazardOpt ((genTrace pyR (resetWorld pyR g) ps).lanes (r - 1)) = true ∧
        isHazardOpt ((genTrace pyR (resetWorld pyR g) ps).lanes (r - 2)) = true)) ∧
    (∀ w : World, isHazardOpt (w.lanes (r - 1)) = true →
        isHazardOpt (w.lanes (r - 2)) = true →
        (chooseLaneType w r).1 = LaneType.grass) ∧
    (∀ w : World,
        ¬ (isHazardOpt (w.lanes (r - 1)) = true ∧
           isHazardOpt (w.lanes (r - 2)) = true) →
        (chooseLaneType w r).1 = weightedPick (w.rng.random).1) := by
  refine ⟨?_, ?_, ?_⟩
  · exact (genTrace_inv pyR ps (resetWorld pyR g) (resetWorld_Bound pyR g)
      (resetWorld_NoTriple pyR g)).2 r h10
  · intro w h1 h2
    exact chooseLaneType_forced w r h10 h1 h2
  · intro w h
    exact chooseLaneType_weighted w r h10 h

theorem no_triple_hazard_witness :
    (10 : ℤ) ≤ 10 ∧
    ((¬ (isHazardOpt ((genTrace pyR0 (resetWorld pyR0 rng0) [2]).lanes 10) = true ∧
         isHazardOpt ((genTrace pyR0 (resetWorld pyR0 rng0) [2]).lanes (10 - 1)) = true ∧
         isHazardOpt ((genTrace pyR0 (resetWorld pyR0 rng0) [2]).lanes (10 - 2)) = true)) ∧
     (∀ w : World, isHazardOpt (w.lanes (10 - 1)) = true →
         isHazardOpt (w.lanes (10 - 2)) = true →
         (chooseLaneType w 10).1 = LaneType.grass) ∧
     (∀ w : World,
         ¬ (isHazardOpt (w.lanes (10 - 1)) = true ∧
            isHazardOpt (w.lanes (10 - 2)) = true) →
         (chooseLaneType w 10).1 = weightedPick (w.rng.random).1)) :=
  ⟨by decide, no_triple_hazard pyR0 rng0 [2] 10 (by decide)⟩

/-! ### C6 — the no-gap invariant -/

/-- Every row from the retention cutoff `max 0 (p - (BEHIND_ROWS + 8))`
up to the last ensured row is present. -/
def NoGaps (w : World) (p : ℤ) : Prop :=
  ∀ r : ℤ, max 0 (p - (BEHIND_ROWS + 8)) ≤ r → r ≤ w.maxGenerated →
    (w.lanes r).isSome = true

theorem generateAround_NoGaps (pyR : ℤ → ℕ → ℚ) (w : World) (q p : ℤ)
    (hqp : q ≤ p) (hB : Bound w) (hT : NoTriple w) (hJ : NoGaps w q) :
    NoGaps (generateAround pyR w p) p := by
  obtain ⟨_, _, hmax1, hmono1, hnew1⟩ :=
    genRows_inv pyR ((p + AHEAD_ROWS + 1 - (w.maxGenerated + 1)).toNat) w hB hT
  intro r hr1 hr2
  unfold generateAround intRange at hr2 ⊢
  dsimp only at hr2 ⊢
  rw [if_neg (not_lt.mpr hr1)]
  by_cases hrM : r ≤ w.maxGenerated
  · refine hmono1 r (hJ r ?_ hrM)
    refine le_trans (max_le_max le_rfl ?_) hr1
    omega
  · exact hnew1 r (by omega) (by rw [hmax1] at hr2; exact hr2)

theorem genTrace_NoGaps (pyR : ℤ → ℕ → ℚ) :
    ∀ (ps : List ℤ) (w : World) (q : ℤ),
      Bound w → NoTriple w → NoGaps w q → List.Chain (· ≤ ·) q ps →
      NoGaps (genTrace pyR w ps) (ps.getLastD q) := by
  intro ps
  induction ps with
  | nil =>
      intro w q _ _ hJ _
      exact hJ
  | cons p t ih =>
      intro w q hB hT hJ hchain
      obtain ⟨hqp, hchain'⟩ := List.chain_cons.mp hchain
      obtain ⟨hB1, hT1⟩ := generateAround_inv pyR w p hB hT
      have hJ1 := generateAround_NoGaps pyR w q p hqp hB hT hJ
      have hrec := ih (generateAround pyR w p) p hB1 hT1 hJ1 hchain'
      rw [List.getLastD_cons]
      exact hrec

/-- C6: after any sequence of `_generate_around` calls with
monotonically non-decreasing player rows ending at `p`, every row from
the retention cutoff `max 0 (p - (BEHIND_ROWS + 8))` up to the last
ensured row `maxGenerated` is mapped to a lane (the row-keyed map makes
the lane unique). -/
theorem window_no_gaps (pyR : ℤ → ℕ → ℚ) (g : Rng) (ps : List ℤ) (p r : ℤ)
    (hchain : List.Chain' (· ≤ ·) ps) (hlast : ps.getLast? = some p)
    (h1 : max 0 (p - (BEHIND_ROWS + 8)) ≤ r)
    (h2 : r ≤ (genTrace pyR (resetWorld pyR g) ps).maxGenerated) :
    ((genTrace pyR (resetWorld pyR g) ps).lanes r).isSome = true := by
  rcases ps with _ | ⟨q, t⟩
  · exact absurd hlast (by simp)
  · have hchain2 : List.Chain (· ≤ ·) q (q :: t) :=
      List.chain_cons.mpr ⟨le_rfl, hchain⟩
    have hJ0 : NoGaps (resetWorld pyR g) q := by
      intro r' hr1 hr2
      rw [resetWorld_maxGen] at hr2
      have : (0 : ℤ) ≤ r' := le_trans (le_max_left _ _) hr1
      omega
    have hrec := genTrace_NoGaps pyR (q :: t) (resetWorld pyR g) q
      (resetWorld_Bound pyR g) (resetWorld_NoTriple pyR g) hJ0 hchain2
    have hp : (q :: t).getLastD q = p := by
      rw [List.getLastD_eq_getLast?, hlast]
      rfl
    rw [hp] at hrec
    exact hrec r h1 h2

theorem chainWitC6 : List.Chain' (· ≤ ·) [(2 : ℤ), 3, 5] :=
  List.Chain.cons (by norm_num) (List.Chain.cons (by norm_num) List.Chain.nil)

theorem window_no_gaps_witness :
    List.Chain' (· ≤ ·) [(2 : ℤ), 3, 5] ∧
    ([(2 : ℤ), 3, 5].getLast? = some 5) ∧
    max 0 (5 - (BEHIND_ROWS + 8)) ≤ (0 : ℤ) ∧
    (0 : ℤ) ≤ (genTrace pyR0 (resetWorld pyR0 rng0) [2, 3, 5]).maxGenerated ∧
    ((genTrace pyR0 (resetWorld pyR0 rng0) [2, 3, 5]).lanes 0).isSome = true :=
  ⟨chainWitC6,
   of_decide_eq_true (by with_unfolding_all rfl),
   of_decide_eq_true (by with_unfolding_all rfl),
   of_decide_eq_true (by with_unfolding_all rfl),
   window_no_gaps pyR0 rng0 [2, 3, 5] 5 0
     chainWitC6
     (of_decide_eq_true (by with_unfolding_all rfl))
     (of_decide_eq_true (by with_unfolding_all rfl))
     (of_decide_eq_true (by with_unfolding_all rfl))⟩

/-! ### C8 — determinism and blocked-cell consistency -/

/-- Every grass lane's stored tree set is exactly the one recomputable
from its decoration seed. -/
def TreesOk (pyR : ℤ → ℕ → ℚ) (w : World) : Prop :=
  ∀ r L, w.lanes r = some L → L.lane_type = LaneType.grass →
    L.tree_positions = generateTreePositions pyR L.decoration_seed

theorem buildLane_trees (pyR : ℤ → ℕ → ℚ) (row : ℤ) (t : LaneType) (g : Rng)
    (h : (buildLane pyR row t g).1.lane_type = LaneType.grass) :
    (buildLane pyR row t g).1.tree_positions =
      generateTreePositions pyR (buildLane pyR row t g).1.decoration_seed := by
  cases t
  · rfl
  · rw [buildLane_type] at h
    exact LaneType.noConfusion h
  · rw [buildLane_type] at h
    exact LaneType.noConfusion h

theorem ensureLane_TreesOk (pyR : ℤ → ℕ → ℚ) (w : World) (row : ℤ)
    (force : Option LaneType) (hw : TreesOk pyR w) :
    TreesOk pyR (ensureLane pyR w row force) := by
  intro r L h hg
  by_cases hpres : (w.lanes row).isSome = true
  · rw [ensureLane_of_present pyR w row force hpres] at h
    exact hw r L h hg
  · by_cases hr : r = row
    · subst hr
      have hnone := option_eq_none_of_not_isSome hpres
      cases force with
      | some t =>
          rw [ensureLane_new_forced pyR w r t hnone] at h
          have hL : L = (buildLane pyR r t w.rng).1 :=
            (Option.some_injective _ h).symm
          subst hL
          exact buildLane_trees pyR r t w.rng hg
      | none =>
          rw [ensureLane_new pyR w r hnone] at h
          have hL : L = (buildLane pyR r (chooseLaneType w r).1
              (chooseLaneType w r).2).1 :=
            (Option.some_injective _ h).symm
          subst hL
          exact buildLane_trees pyR r _ _ hg
    · rw [ensureLane_other pyR w row force r hr] at h
      exact hw r L h hg

theorem genRows_TreesOk (pyR : ℤ → ℕ → ℚ) :
    ∀ (rs : List ℤ) (w : World), TreesOk pyR w → TreesOk pyR (genRows pyR w rs) := by
  intro rs
  induction rs with
  | nil =>
      intro w hw
      exact hw
  | cons a t ih =>
      intro w hw
      refine ih (genStepW pyR w a) ?_
      intro r L h hg
      rw [genStepW_lanes] at h
      exact ensureLane_TreesOk pyR w a none hw r L h hg

theorem generateAround_TreesOk (pyR : ℤ → ℕ → ℚ) (w : World) (p : ℤ)
    (hw : TreesOk pyR w) : TreesOk pyR (generateAround pyR w p) := by
  intro r L h hg
  unfold generateAround intRange at h
  dsimp only at h
  by_cases hr : r < max 0 (p - (BEHIND_ROWS + 8))
  · rw [if_pos hr] at h
    exact Option.noConfusion h
  · rw [if_neg hr] at h
    exact genRows_TreesOk pyR _ w hw r L h hg

theorem genTrace_TreesOk (pyR : ℤ → ℕ → ℚ) :
    ∀ (ps : List ℤ) (w : World), TreesOk pyR w → TreesOk pyR (genTrace pyR w ps) := by
  intro ps
  induction ps with
  | nil =>
      intro w hw
      exact hw
  | cons p t ih =>
      intro w hw
      exact ih _ (generateAround_TreesOk pyR w p hw)

theorem resetWorld_TreesOk (pyR : ℤ → ℕ → ℚ) (g : Rng) :
    TreesOk pyR (resetWorld pyR g) := by
  have haux : ∀ (rs : List ℤ) (w : World), TreesOk pyR w →
      TreesOk pyR (rs.foldl (fun w k => ensureLane pyR w k (some LaneType.grass)) w) := by
    intro rs
    induction rs with
    | nil =>
        intro w hw
        exact hw
    | cons a t ih =>
        intro w hw
        exact ih _ (ensureLane_TreesOk pyR w a (some LaneType.grass) hw)
  intro r L h hg
  simp only [resetWorld] at h
  exact haux (intRange 0 8) _ (fun r' L' h' => Option.noConfusion h') r L h hg

/-! Stability: once generated, a lane is never altered — only kept
verbatim or discarded by the retention window. -/

def StableState (w : World) (r : ℤ) (L : Lane) : Prop :=
  w.lanes r = some L ∨ (w.lanes r = none ∧ r ≤ w.maxGenerated)

theorem genRows_some (pyR : ℤ → ℕ → ℚ) :
    ∀ (rs : List ℤ) (w : World) (r : ℤ) (L : Lane),
      w.lanes r = some L → (genRows pyR w rs).lanes r = some L := by
  intro rs
  induction rs with
  | nil =>
      intro w r L h
      exact h
  | cons a t ih =>
      intro w r L h
      refine ih (genStepW pyR w a) r L ?_
      rw [genStepW_lanes]
      exact ensureLane_some pyR w a none r L h

theorem genRows_untouched (pyR : ℤ → ℕ → ℚ) :
    ∀ (rs : List ℤ) (w : World) (r : ℤ), (∀ x ∈ rs, x ≠ r) →
      (genRows pyR w rs).lanes r = w.lanes r := by
  intro rs
  induction rs with
  | nil =>
      intro w r _
      rfl
  | cons a t ih =>
      intro w r hne
      have h1 : (genRows pyR (genStepW pyR w a) t).lanes r
          = (genStepW pyR w a).lanes r :=
        ih (genStepW pyR w a) r (fun x hx => hne x (List.mem_cons_of_mem a hx))
      have h2 : (genStepW pyR w a).lanes r = w.lanes r := by
        rw [genStepW_lanes]
        exact ensureLane_other pyR w a none r
          (fun hrr => hne a (List.mem_cons_self a t) hrr.symm)
      exact h1.trans h2

theorem genRows_maxGen_eq (pyR : ℤ → ℕ → ℚ) :
    ∀ (n : ℕ) (w : World),
      (genRows pyR w (intRangeAux (w.maxGenerated + 1) n)).maxGenerated
        = w.maxGenerated + n := by
  intro n
  induction n with
  | zero =>
      intro w
      simp [genRows, intRangeAux]
  | succ m ih =>
      intro w
      have hmax' : (genStepW pyR w (w.maxGenerated + 1)).maxGenerated
          = w.maxGenerated + 1 := by
        rw [genStepW_maxGen]
        exact max_eq_right (by omega)
      have hfold : genRows pyR w (intRangeAux (w.maxGenerated + 1) (m + 1)) =
          genRows pyR (genStepW pyR w (w.maxGenerated + 1))
            (intRangeAux ((genStepW pyR w (w.maxGenerated + 1)).maxGenerated + 1) m) := by
        rw [hmax']
        rfl
      rw [hfold, ih, hmax']
      push_cast
      ring

theorem generateAround_stable (pyR : ℤ → ℕ → ℚ) (w : World) (p : ℤ) (r : ℤ) (L : Lane)
    (hB : Bound w) (h : StableState w r L) :
    StableState (generateAround pyR w p) r L := by
  obtain ⟨hBm, hBr⟩ := hB
  have hmaxeq := genRows_maxGen_eq pyR ((p + AHEAD_ROWS + 1 - (w.maxGenerated + 1)).toNat) w
  unfold StableState generateAround intRange
  dsimp only
  rcases h with h | ⟨hn, hle⟩
  · by_cases hr : r < max 0 (p - (BEHIND_ROWS + 8))
    · refine Or.inr ⟨by rw [if_pos hr], ?_⟩
      rw [hmaxeq]
      obtain ⟨h0, h7⟩ := hBr r (by rw [h]; rfl)
      have hrp : r < p - (BEHIND_ROWS + 8) := by
        rcases max_cases (0 : ℤ) (p - (BEHIND_ROWS + 8)) with ⟨he, _⟩ | ⟨he, _⟩
        · rw [he] at hr; omega
        · rw [he] at hr; exact hr
      have hrt : r < p + AHEAD_ROWS := by
        unfold BEHIND_ROWS at hrp
        unfold AHEAD_ROWS
        omega
      rcases le_or_lt (p + AHEAD_ROWS + 1) (w.maxGenerated + 1) with hc | hc
      · omega
      · have : (p + AHEAD_ROWS + 1 - (w.maxGenerated + 1)).toNat
            = (p + AHEAD_ROWS - w.maxGenerated) := by omega
        omega
    · refine Or.inl ?_
      rw [if_neg hr]
      exact genRows_some pyR _ w r L h
  · have huntouched : (genRows pyR w
        (intRangeAux (w.maxGenerated + 1)
          ((p + AHEAD_ROWS + 1 - (w.maxGenerated + 1)).toNat))).lanes r = none := by
      rw [genRows_untouched pyR _ w r ?_]
      · exact hn
      · intro x hx
        have := mem_intRangeAux _ _ x hx
        omega
    refine Or.inr ⟨?_, ?_⟩
    · by_cases hr : r < max 0 (p - (BEHIND_ROWS + 8))
      · rw [if_pos hr]
      · rw [if_neg hr]
        exact huntouched
    · rw [hmaxeq]
      omega

theorem genTrace_stable (pyR : ℤ → ℕ → ℚ) :
    ∀ (qs : List ℤ) (w : World) (r : ℤ) (L : Lane),
      Bound w → NoTriple w → StableState w r L →
      (genTrace pyR w qs).lanes r = some L ∨ (genTrace pyR w qs).lanes r = none := by
  intro qs
  induction qs with
  | nil =>
      intro w r L _ _ h
      rcases h with h | ⟨hn, _⟩
      · exact Or.inl h
      · exact Or.inr hn
  | cons p t ih =>
      intro w r L hB hT h
      obtain ⟨hB1, hT1⟩ := generateAround_inv pyR w p hB hT
      exact ih _ r L hB1 hT1 (generateAround_stable pyR w p r L hB h)

theorem canMoveTo_spec (pyR : ℤ → ℕ → ℚ) (G : Game) (dc dr : ℤ) (L : Lane)
    (h : G.world.lanes (max 0 (G.player.row + dr)) = some L) :
    (canMoveTo pyR G dc dr).2 =
      !(decide (L.lane_type = LaneType.grass) &&
        L.has_tree_at (clamp (G.player.gridCol + dc) 0 (GRID_COLS - 1))) := by
  unfold canMoveTo laneAt
  dsimp only
  rw [ensureLane_of_present pyR G.world _ none (by rw [h]; rfl), h]
  rfl

/-- C8: the blocked-cell data is deterministic and consistent.  (a) Every
grass lane that generation ever produces stores exactly the tree set
recomputed by `generateTreePositions` from its decoration seed — two runs
from the same seed streams are applications of the same pure function, so
their lane types, directions, speeds and blocked sets coincide, and
repeated `has_tree_at` queries read this one fixed list.  (b) Later
generation steps never rewrite a generated lane: it survives verbatim or
is discarded by the retention window.  (c) Hop validation consults
exactly this lane's `has_tree_at` at the clamped target column. -/
theorem generation_deterministic (pyR : ℤ → ℕ → ℚ) (g : Rng) (ps qs : List ℤ)
    (r : ℤ) (L : Lane)
    (h : (genTrace pyR (resetWorld pyR g) ps).lanes r = some L) :
    (L.lane_type = LaneType.grass →
      L.tree_positions = generateTreePositions pyR L.decoration_seed) ∧
    ((genTrace pyR (genTrace pyR (resetWorld pyR g) ps) qs).lanes r = some L ∨
     (genTrace pyR (genTrace pyR (resetWorld pyR g) ps) qs).lanes r = none) ∧
    (∀ (G : Game) (dc dr : ℤ), G.world.lanes (max 0 (G.player.row + dr)) = some L →
      (canMoveTo pyR G dc dr).2 =
        !(decide (L.lane_type = LaneType.grass) &&
          L.has_tree_at (clamp (G.player.gridCol + dc) 0 (GRID_COLS - 1)))) := by
  obtain ⟨hB, hT⟩ := genTrace_inv pyR ps (resetWorld pyR g)
    (resetWorld_Bound pyR g) (resetWorld_NoTriple pyR g)
  refine ⟨?_, ?_, ?_⟩
  · exact genTrace_TreesOk pyR ps (resetWorld pyR g) (resetWorld_TreesOk pyR g) r L h
  · exact genTrace_stable pyR qs _ r L hB hT (Or.inl h)
  · intro G dc dr hG
    exact canMoveTo_spec pyR G dc dr L hG

def laneC8 : Lane :=
  { lane_type := LaneType.grass, row := 0, direction := 1, speed := 0,
    spawn_gap := 999, last_spawn_t := 999, objects := [],
    decoration_seed := 500000, tree_positions := [] }

theorem generation_deterministic_witness :
    ((genTrace pyR0 (resetWorld pyR0 rng0) [2]).lanes 0 = some laneC8) ∧
    ((laneC8.lane_type = LaneType.grass →
        laneC8.tree_positions = generateTreePositions pyR0 laneC8.decoration_seed) ∧
     ((genTrace pyR0 (genTrace pyR0 (resetWorld pyR0 rng0) [2]) [3]).lanes 0
          = some laneC8 ∨
      (genTrace pyR0 (genTrace pyR0 (resetWorld pyR0 rng0) [2]) [3]).lanes 0 = none) ∧
     (∀ (G : Game) (dc dr : ℤ),
        G.world.lanes (max 0 (G.player.row + dr)) = some laneC8 →
        (canMoveTo pyR0 G dc dr).2 =
          !(decide (laneC8.lane_type = LaneType.grass) &&
            laneC8.has_tree_at (clamp (G.player.gridCol + dc) 0 (GRID_COLS - 1))))) :=
  ⟨by with_unfolding_all rfl,
   generation_deterministic pyR0 rng0 [2] [3] 0 laneC8
     (by with_unfolding_all rfl)⟩

end CrossyRoad
